import Mathlib

/-!
Verification development for the clipboard-sync core (Rust sources under src/).

Shallow embedding conventions:
* Rust strings and filenames are modelled as Lean List Char (filesystem paths
  as lists of components); Unicode code points coincide with Rust char order.
* Machine integers (u64 beats, u32 file counts) are Nat with explicit bounds
  where the code would overflow or fail to parse.
* Effectful calls (filesystem reads, clipboard API, hashing, serde) are
  oracle inputs carried in environment structures; the functions translate the
  control flow of the source exactly, and effects the source performs are
  reported in an output effect list.
-/

namespace ClipboardSync

/-! ## Character classes used by the filename regex

The filename grammar from src/clipboard.rs line 21:
  ([1-9][0-9]*)-([0-9a-zA-Z-]+)\.((text\.json)|png|([1-9][0-9]*)_files)
anchored at both ends.
-/

def isDigitChar (c : Char) : Bool := c.isDigit

def isHostChar (c : Char) : Bool := c.isDigit || c.isAlpha || c = '-'

/-! ## Decimal representation of a nonnegative integer

Models the decimal rendering performed by the Rust format! macro on u64/u32
values ("{beat}", "{files_count}").
-/

def digitChar : Nat → Char
  | 0 => '0'
  | 1 => '1'
  | 2 => '2'
  | 3 => '3'
  | 4 => '4'
  | 5 => '5'
  | 6 => '6'
  | 7 => '7'
  | 8 => '8'
  | _ => '9'

def natRepr (n : Nat) : List Char :=
  if h : n < 10 then [digitChar n]
  else natRepr (n / 10) ++ [digitChar (n % 10)]
decreasing_by
  apply Nat.div_lt_self <;> omega

/-- Numeric value of a digit string, as read back by Rust str::parse. -/
def digitsToNat (l : List Char) : Nat :=
  l.foldl (fun a c => a * 10 + (c.toNat - 48)) 0

/-- Models str::parse::<u64>() on a string of ASCII digits: fails on overflow. -/
def parseNat64 (l : List Char) : Option Nat :=
  if digitsToNat l < 2 ^ 64 then some (digitsToNat l) else none

/-- Models str::parse::<u32>() on a string of ASCII digits: fails on overflow. -/
def parseNat32 (l : List Char) : Option Nat :=
  if digitsToNat l < 2 ^ 32 then some (digitsToNat l) else none

lemma digitChar_isDigit : ∀ m, m < 10 → isDigitChar (digitChar m) = true := by decide

lemma digitChar_ne_zero : ∀ m, m < 10 → 1 ≤ m → digitChar m ≠ '0' := by decide

lemma digitChar_toNat : ∀ m, m < 10 → (digitChar m).toNat = 48 + m := by decide

lemma digitsToNat_append (l : List Char) (c : Char) :
    digitsToNat (l ++ [c]) = digitsToNat l * 10 + (c.toNat - 48) := by
  simp [digitsToNat, List.foldl_append]

/-- Combined specification of natRepr: all characters are digits, the value
reads back, the list is nonempty, and for positive inputs the leading digit is
not zero. -/
lemma natRepr_spec (n : Nat) :
    (∀ c ∈ natRepr n, isDigitChar c = true) ∧
    digitsToNat (natRepr n) = n ∧
    natRepr n ≠ [] ∧
    (1 ≤ n → (natRepr n).head? ≠ some '0') := by
  induction n using Nat.strong_induction_on with
  | _ n ih =>
    unfold natRepr
    split
    · rename_i h
      refine ⟨?_, ?_, by simp, ?_⟩
      · intro c hc
        simp only [List.mem_singleton] at hc
        subst hc
        exact digitChar_isDigit n h
      · have := digitChar_toNat n h
        simp [digitsToNat, this]
      · intro hn
        simp only [List.head?_cons, ne_eq, Option.some.injEq]
        exact digitChar_ne_zero n h hn
    · rename_i h
      have hdiv : n / 10 < n := Nat.div_lt_self (by omega) (by omega)
      obtain ⟨ihmem, ihval, ihne, ihhd⟩ := ih (n / 10) hdiv
      have hmod : n % 10 < 10 := Nat.mod_lt _ (by omega)
      refine ⟨?_, ?_, ?_, ?_⟩
      · intro c hc
        rcases List.mem_append.mp hc with h1 | h1
        · exact ihmem c h1
        · simp only [List.mem_singleton] at h1
          subst h1
          exact digitChar_isDigit _ hmod
      · rw [digitsToNat_append, ihval, digitChar_toNat _ hmod]
        omega
      · simp
      · intro _
        rcases hne : natRepr (n / 10) with _ | ⟨d, ds⟩
        · exact absurd hne ihne
        · have hd10 : 1 ≤ n / 10 := by
            have := Nat.div_le_div_right (c := 10) (Nat.le_of_not_lt h)
            simpa using this
          have := ihhd hd10
          rw [hne] at this
          simpa using this

lemma natRepr_ne_nil (n : Nat) : natRepr n ≠ [] := (natRepr_spec n).2.2.1

lemma natRepr_digits (n : Nat) : ∀ c ∈ natRepr n, isDigitChar c = true :=
  (natRepr_spec n).1

lemma digitsToNat_natRepr (n : Nat) : digitsToNat (natRepr n) = n :=
  (natRepr_spec n).2.1

lemma natRepr_head_ne_zero (n : Nat) (h : 1 ≤ n) : (natRepr n).head? ≠ some '0' :=
  (natRepr_spec n).2.2.2 h

/-! ## takeWhile and dropWhile over a block of accepted characters -/

lemma takeWhile_append_all {α : Type} (p : α → Bool) (l r : List α)
    (h : ∀ c ∈ l, p c = true) :
    (l ++ r).takeWhile p = l ++ r.takeWhile p := by
  induction l with
  | nil => simp
  | cons a t iht =>
    have ha : p a = true := h a (by simp)
    simp only [List.cons_append, List.takeWhile_cons_of_pos ha]
    rw [iht (fun c hc => h c (by simp [hc]))]

lemma dropWhile_append_all {α : Type} (p : α → Bool) (l r : List α)
    (h : ∀ c ∈ l, p c = true) :
    (l ++ r).dropWhile p = r.dropWhile p := by
  induction l with
  | nil => simp
  | cons a t iht =>
    have ha : p a = true := h a (by simp)
    simp only [List.cons_append, List.dropWhile_cons_of_pos ha]
    exact iht (fun c hc => h c (by simp [hc]))

lemma takeWhile_block {α : Type} (p : α → Bool) (l : List α) (x : α) (r : List α)
    (h : ∀ c ∈ l, p c = true) (hx : p x = false) :
    (l ++ x :: r).takeWhile p = l := by
  rw [takeWhile_append_all p l _ h, List.takeWhile_cons_of_neg (by simp [hx])]
  simp

lemma dropWhile_block {α : Type} (p : α → Bool) (l : List α) (x : α) (r : List α)
    (h : ∀ c ∈ l, p c = true) (hx : p x = false) :
    (l ++ x :: r).dropWhile p = x :: r := by
  rw [dropWhile_append_all p l _ h, List.dropWhile_cons_of_neg (by simp [hx])]

/-! ## Types from src/types.rs -/

inductive ClipboardContentType
  | Text
  | Image
  | Files
deriving DecidableEq, Repr

inductive ClipboardOrigin
  | Myself
  | Others
deriving DecidableEq, Repr

/-- Text clipboard content (src/types.rs): three optional representations. -/
structure ClipboardText where
  text : Option String
  html : Option String
  rtf : Option String
deriving DecidableEq, Repr

def ClipboardText.is_empty (ct : ClipboardText) : Bool :=
  (match ct.text with | none => true | some t => t.isEmpty) &&
  (match ct.html with | none => true | some h => h.isEmpty) &&
  (match ct.rtf with | none => true | some r => r.isEmpty)

def ClipboardText.equals (a b : ClipboardText) : Bool :=
  a.text == b.text && a.html == b.html && a.rtf == b.rtf

/-- A parsed clipboard file (src/types.rs). Paths are lists of components,
each component a list of characters. -/
structure ParsedClipboardFile where
  path : List (List Char)
  beat : Nat
  content_type : ClipboardContentType
  origin : ClipboardOrigin
  files_count : Option Nat
deriving DecidableEq, Repr

/-! ## Filename matcher (src/clipboard.rs lines 20-23)

Deterministic rendering of the anchored backtracking regex
  ([1-9][0-9]*)-([0-9a-zA-Z-]+)\.((text\.json)|png|([1-9][0-9]*)_files)
Each greedy character class is immediately followed by a literal outside the
class (the dash after the digits, the dot after the host characters, the
underscore after the count digits), so a shortened class match always leaves a
class character where the literal is required and backtracking can never
succeed; the greedy (maximal) split is therefore the only possible one, and
takeWhile/dropWhile compute it. -/

inductive SuffixCap
  | text
  | png
  | files (digits : List Char)
deriving DecidableEq, Repr

def matchSuffix (sfx : List Char) : Option SuffixCap :=
  if sfx = "text.json".data then some .text
  else if sfx = "png".data then some .png
  else
    match sfx.takeWhile isDigitChar, sfx.dropWhile isDigitChar with
    | d :: ds, rest =>
      if d = '0' then none
      else if rest = "_files".data then some (.files (d :: ds)) else none
    | _, _ => none

def matchFileName (name : List Char) :
    Option (List Char × List Char × SuffixCap) :=
  match name.takeWhile isDigitChar, name.dropWhile isDigitChar with
  | d :: ds, sep :: rest1 =>
    if d = '0' then none
    else if sep = '-' then
      match rest1.takeWhile isHostChar, rest1.dropWhile isHostChar with
      | h :: hs, dot :: sfx =>
        if dot = '.' then
          (matchSuffix sfx).map (fun s => (d :: ds, h :: hs, s))
        else none
      | _, _ => none
    else none
  | _, _ => none

/-- Models Path::strip_prefix on component lists. -/
def dropRoot : List (List Char) → List (List Char) → Option (List (List Char))
  | [], f => some f
  | _ :: _, [] => none
  | r :: rs, f :: fs => if f = r then dropRoot rs fs else none

lemma dropRoot_append (root m : List (List Char)) :
    dropRoot root (root ++ m) = some m := by
  induction root with
  | nil => rfl
  | cons a t iht => simp [dropRoot, iht]

/-- Parse a clipboard filename in the sync folder
(parse_clipboard_filename, src/clipboard.rs lines 36-87). -/
def parse_clipboard_filename (file sync_folder : List (List Char))
    (hostname : List Char) (filter : Option ClipboardOrigin) :
    Option ParsedClipboardFile :=
  match dropRoot sync_folder file with
  | none => none
  | some [] => none
  | some (base :: _) =>
    match matchFileName base with
    | none => none
    | some (beatDigits, fileHost, sfx) =>
      match parseNat64 beatDigits with
      | none => none
      | some beat =>
        let parsedKind : Option (ClipboardContentType × Option Nat) :=
          match sfx with
          | .files ds =>
            match parseNat32 ds with
            | none => none
            | some n => some (.Files, some n)
          | .text => some (.Text, none)
          | .png => some (.Image, none)
        match parsedKind with
        | none => none
        | some (ctype, fcount) =>
          let origin : ClipboardOrigin :=
            if fileHost = hostname then .Myself else .Others
          match filter with
          | some expected =>
            if origin ≠ expected then none
            else some ⟨sync_folder ++ [base], beat, ctype, origin, fcount⟩
          | none => some ⟨sync_folder ++ [base], beat, ctype, origin, fcount⟩

/-! ## Filenames produced by the writer (src/clipboard.rs lines 357, 375, 388) -/

def text_filename (beat : Nat) (hostname : List Char) : List Char :=
  natRepr beat ++ '-' :: (hostname ++ '.' :: "text.json".data)

def image_filename (beat : Nat) (hostname : List Char) : List Char :=
  natRepr beat ++ '-' :: (hostname ++ '.' :: "png".data)

def files_filename (beat : Nat) (hostname : List Char) (n : Nat) : List Char :=
  natRepr beat ++ '-' :: (hostname ++ '.' :: (natRepr n ++ "_files".data))

/-- The three encodable artifact shapes. -/
inductive EncodeKind
  | text
  | image
  | files (n : Nat)
deriving DecidableEq, Repr

def EncodeKind.filename (k : EncodeKind) (beat : Nat) (hostname : List Char) :
    List Char :=
  match k with
  | .text => text_filename beat hostname
  | .image => image_filename beat hostname
  | .files n => files_filename beat hostname n

def EncodeKind.contentType : EncodeKind → ClipboardContentType
  | .text => .Text
  | .image => .Image
  | .files _ => .Files

def EncodeKind.filesCount : EncodeKind → Option Nat
  | .text => none
  | .image => none
  | .files n => some n

/-- Range constraint on the encoded file count: it is a u32 in the source and
at least 1 (an empty file list is rejected before encoding). -/
def EncodeKind.countOk : EncodeKind → Prop
  | .files n => 1 ≤ n ∧ n < 2 ^ 32
  | _ => True

/-! ## Roundtrip lemmas -/

lemma natRepr_cons (n : Nat) : ∃ d ds, natRepr n = d :: ds := by
  cases h : natRepr n with
  | nil => exact absurd h (natRepr_ne_nil n)
  | cons d ds => exact ⟨d, ds, rfl⟩

lemma matchSuffix_files (n : Nat) (hn : 1 ≤ n) :
    matchSuffix (natRepr n ++ "_files".data) = some (.files (natRepr n)) := by
  obtain ⟨d, ds, hds⟩ := natRepr_cons n
  have hdig : isDigitChar d = true := by
    have := natRepr_digits n d
    rw [hds] at this
    exact this (by simp)
  have hd0 : d ≠ '0' := by
    have := natRepr_head_ne_zero n hn
    rw [hds] at this
    simpa using this
  have hne1 : natRepr n ++ "_files".data ≠ "text.json".data := by
    rw [hds]
    intro heq
    have : d = 't' := by
      have := congrArg List.head? heq
      simpa using this
    rw [this] at hdig
    exact absurd hdig (by decide)
  have hne2 : natRepr n ++ "_files".data ≠ "png".data := by
    rw [hds]
    intro heq
    have : d = 'p' := by
      have := congrArg List.head? heq
      simpa using this
    rw [this] at hdig
    exact absurd hdig (by decide)
  have htw : (natRepr n ++ "_files".data).takeWhile isDigitChar = natRepr n := by
    have : ("_files".data : List Char) = '_' :: "files".data := by decide
    rw [this, takeWhile_block isDigitChar _ _ _ (natRepr_digits n) (by decide)]
  have hdw : (natRepr n ++ "_files".data).dropWhile isDigitChar = "_files".data := by
    have : ("_files".data : List Char) = '_' :: "files".data := by decide
    rw [this, dropWhile_block isDigitChar _ _ _ (natRepr_digits n) (by decide)]
  unfold matchSuffix
  rw [if_neg hne1, if_neg hne2, htw, hdw, hds]
  simp [hd0]

lemma matchFileName_encoded (beat : Nat) (host : List Char) (sfx : List Char)
    (hb : 1 ≤ beat) (hhost : host ≠ []) (hhostc : ∀ c ∈ host, isHostChar c = true) :
    matchFileName (natRepr beat ++ '-' :: (host ++ '.' :: sfx)) =
      (matchSuffix sfx).map (fun s => (natRepr beat, host, s)) := by
  obtain ⟨d, ds, hds⟩ := natRepr_cons beat
  obtain ⟨h0, hs0, hhs⟩ : ∃ h0 hs0, host = h0 :: hs0 := by
    cases host with
    | nil => exact absurd rfl hhost
    | cons h0 hs0 => exact ⟨h0, hs0, rfl⟩
  have hd0 : d ≠ '0' := by
    have := natRepr_head_ne_zero beat hb
    rw [hds] at this
    simpa using this
  have htw : (natRepr beat ++ '-' :: (host ++ '.' :: sfx)).takeWhile isDigitChar
      = natRepr beat :=
    takeWhile_block isDigitChar _ _ _ (natRepr_digits beat) (by decide)
  have hdw : (natRepr beat ++ '-' :: (host ++ '.' :: sfx)).dropWhile isDigitChar
      = '-' :: (host ++ '.' :: sfx) :=
    dropWhile_block isDigitChar _ _ _ (natRepr_digits beat) (by decide)
  have htw2 : (host ++ '.' :: sfx).takeWhile isHostChar = host :=
    takeWhile_block isHostChar _ _ _ hhostc (by decide)
  have hdw2 : (host ++ '.' :: sfx).dropWhile isHostChar = '.' :: sfx :=
    dropWhile_block isHostChar _ _ _ hhostc (by decide)
  have htw2' : (host ++ '.' :: sfx).takeWhile isHostChar = h0 :: hs0 := by
    rw [htw2, hhs]
  unfold matchFileName
  rw [htw, hdw, hds]
  simp only [hd0, htw2', hdw2, if_neg, not_false_eq_true, if_true, reduceIte]
  rw [← hds, ← hhs]

/-- Claim C1: encoding an artifact with the filename formats of
write_clipboard_to_file and decoding it with parse_clipboard_filename relative
to the sync folder with no origin filter recovers the beat, the content kind,
the file count for Files artifacts, and reports origin Myself exactly when the
decoding hostname equals the encoded hostname. Bounds: the beat is a u64 and
the file count a u32 in the source, hence the corresponding range hypotheses. -/
theorem parse_encode_roundtrip (sync_folder : List (List Char)) (beat : Nat)
    (host deviceHost : List Char) (k : EncodeKind)
    (hb : 1 ≤ beat) (hb64 : beat < 2 ^ 64)
    (hhost : host ≠ []) (hhostc : ∀ c ∈ host, isHostChar c = true)
    (hk : k.countOk) :
    parse_clipboard_filename (sync_folder ++ [k.filename beat host]) sync_folder
        deviceHost none
      = some ⟨sync_folder ++ [k.filename beat host], beat, k.contentType,
             (if host = deviceHost then .Myself else .Others), k.filesCount⟩ := by
  have hparse64 : parseNat64 (natRepr beat) = some beat := by
    unfold parseNat64
    rw [digitsToNat_natRepr, if_pos hb64]
  unfold parse_clipboard_filename
  rw [dropRoot_append]
  cases k with
  | text =>
    have hm : matchFileName (text_filename beat host)
        = some (natRepr beat, host, .text) := by
      unfold text_filename
      rw [matchFileName_encoded beat host _ hb hhost hhostc]
      rfl
    simp only [EncodeKind.filename, hm, hparse64, EncodeKind.contentType,
      EncodeKind.filesCount]
  | image =>
    have hm : matchFileName (image_filename beat host)
        = some (natRepr beat, host, .png) := by
      unfold image_filename
      rw [matchFileName_encoded beat host _ hb hhost hhostc]
      rfl
    simp only [EncodeKind.filename, hm, hparse64, EncodeKind.contentType,
      EncodeKind.filesCount]
  | files n =>
    obtain ⟨hn1, hn32⟩ := hk
    have hm : matchFileName (files_filename beat host n)
        = some (natRepr beat, host, .files (natRepr n)) := by
      unfold files_filename
      rw [matchFileName_encoded beat host _ hb hhost hhostc, matchSuffix_files n hn1]
      rfl
    have hparse32 : parseNat32 (natRepr n) = some n := by
      unfold parseNat32
      rw [digitsToNat_natRepr, if_pos hn32]
    simp only [EncodeKind.filename, hm, hparse64, hparse32, EncodeKind.contentType,
      EncodeKind.filesCount]

/-- Closed instance of claim C1 at beat 5, hostname alice, a three-file Files
artifact, decoded by host bob inside folder f. -/
theorem parse_encode_roundtrip_witness :
    ((1 : Nat) ≤ 5 ∧ (5 : Nat) < 2 ^ 64 ∧ "alice".data ≠ [] ∧
      (∀ c ∈ "alice".data, isHostChar c = true) ∧
      EncodeKind.countOk (.files 3)) ∧
    parse_clipboard_filename
        (["f".data] ++ [EncodeKind.filename (.files 3) 5 "alice".data])
        ["f".data] "bob".data none
      = some ⟨["f".data] ++ [EncodeKind.filename (.files 3) 5 "alice".data], 5,
             EncodeKind.contentType (.files 3),
             (if "alice".data = "bob".data then .Myself else .Others),
             EncodeKind.filesCount (.files 3)⟩ :=
  ⟨⟨by decide, by decide, by decide, by decide, by decide, by decide⟩,
   parse_encode_roundtrip ["f".data] 5 "alice".data "bob".data (.files 3)
     (by decide) (by decide) (by decide) (by decide) ⟨by decide, by decide⟩⟩

/-! ## Constants from src/consts.rs -/

def IS_RECEIVING_FILE_SUFFIX : List Char := ".is-receiving.txt".data

def STALE_THRESHOLD_SECS : Nat := 10 * 60

def SELF_CLEAN_THRESHOLD_SECS : Nat := 5 * 60

def OTHERS_CLEAN_THRESHOLD_SECS : Nat := 10 * 60

def DUPLICATE_WINDOW_MS : Nat := 15000

def U64_MOD : Nat := 2 ^ 64

/-! ## Presence tracking (src/clipboard.rs lines 90-122) -/

/-- A directory entry as observed by read_dir: its file name and, when both
metadata() and modified() succeed, its modification time in epoch ms. -/
structure DirEntry where
  name : List Char
  mtime : Option Nat
deriving DecidableEq, Repr

def is_receiving_file (name : List Char) : Bool :=
  IS_RECEIVING_FILE_SUFFIX.isSuffixOf name

/-- no_computers_receiving (src/clipboard.rs lines 95-122). The entries
argument is the result of read_dir on the sync folder, none when it fails.
Returns true when no fresh foreign marker is found, and also returns true
immediately when the folder cannot be read. -/
def no_computers_receiving (entries : Option (List DirEntry))
    (hostname : List Char) (now : Nat) : Bool :=
  let our_file := hostname ++ IS_RECEIVING_FILE_SUFFIX
  let stale_threshold := now - STALE_THRESHOLD_SECS * 1000
  match entries with
  | none => true
  | some es =>
    !es.any (fun e =>
      is_receiving_file e.name && !(e.name == our_file) &&
      (match e.mtime with
       | some t => decide (stale_threshold ≤ t)
       | none => false))

/-! ## Configuration (src/config.rs) -/

inductive WatchMode
  | Native
  | Polling
  | PollingHarder
deriving DecidableEq, Repr

structure Config where
  folder : Option String
  send_texts : Bool
  send_images : Bool
  send_files : Bool
  receive_texts : Bool
  receive_images : Bool
  receive_files : Bool
  auto_cleanup : Bool
  watch_mode : WatchMode
  sync_command : String
deriving DecidableEq, Repr

/-- Default impl for Config (src/config.rs lines 38-53). -/
def Config.default : Config :=
  ⟨none, true, true, true, true, true, true, true, .Native, ""⟩

def Config.is_sending_anything (c : Config) : Bool :=
  c.send_texts || c.send_images || c.send_files

def Config.is_receiving_anything (c : Config) : Bool :=
  c.receive_texts || c.receive_images || c.receive_files

/-- load_config (src/config.rs lines 75-81). The first argument is the result
of fs::read_to_string on the config path (none on error); the second models
serde_json::from_str (none on parse error). -/
def load_config (readResult : Option String)
    (parseJson : String → Option Config) : Config :=
  (readResult.bind parseJson).getD Config.default

/-! ## Mutable dedup state (src/main.rs lines 65-71)

The struct has separate written and read snapshots for text and for image
hashes, but only a read snapshot for file paths. -/

structure AppState where
  last_beat : Option Nat
  last_text_written : Option ClipboardText
  last_text_read : Option ClipboardText
  last_image_sha256_written : Option String
  last_image_sha256_read : Option String
  last_file_paths_read : Option (List String)
deriving DecidableEq, Repr

def emptyAppState : AppState := ⟨none, none, none, none, none, none⟩

/-! ## Sorting of file path lists

Models Vec::sort on Vec of String before the set comparison: the ascending
stable sort of a list of strings (duplicates are identical strings, so any
correct ascending sort yields the Rust result). -/

def insertSorted (x : String) : List String → List String
  | [] => [x]
  | y :: ys => if x ≤ y then x :: y :: ys else y :: insertSorted x ys

def sortStrings (l : List String) : List String := l.foldr insertSorted []

/-! ## Sync writer (write_clipboard_to_file, src/clipboard.rs lines 183-413)

The environment carries one field per external call the function makes, in
source order. The function is split at line 352 (the unconditional advance of
last_beat): write_pre covers lines 194-350 where every abort is a plain
early return false, and write_commit covers lines 352-413. -/

structure WriteEnv where
  /-- now_ms() at entry (line 194). -/
  beat : Nat
  /-- read_dir(sync_folder) inside no_computers_receiving. -/
  dirEntries : Option (List DirEntry)
  /-- ClipboardContext::new() succeeded. -/
  ctxOk : Bool
  hasFiles : Bool
  hasImage : Bool
  hasText : Bool
  hasHtml : Bool
  hasRtf : Bool
  /-- ctx.get_files() result. -/
  getFilesResult : Option (List String)
  /-- ctx.get_image() result; inner layer is img.to_png() giving PNG bytes. -/
  getImageResult : Option (Option (List Nat))
  /-- ctx.get_text().ok() -/
  getTextResult : Option String
  /-- ctx.get_html().ok() -/
  getHtmlResult : Option String
  /-- ctx.get_rich_text().ok() -/
  getRtfResult : Option String
  /-- Outcome of the comparison get_files_size_mb(paths) > MAX_FILES_SIZE_MB
  (an f64 comparison over filesystem state, abstracted as its result). -/
  filesSizeExceeds : Bool
  /-- get_total_number_of_files(paths) for the clipboard file list. -/
  totalFileCount : Nat
  /-- serde_json::to_string_pretty of the text content. -/
  serializeTextResult : Option String
  /-- fs::write of the text json or png bytes succeeded. -/
  writeFileOk : Bool
  /-- fs::create_dir of the files artifact directory succeeded. -/
  createDirOk : Bool
  /-- file_path.is_dir() per top-level source path. -/
  isDir : String → Bool
  /-- Success of copy_folder_recursive or fs::copy per top-level source path. -/
  copyOk : String → Bool

inductive WritePayload
  | text (ct : ClipboardText)
  | image (bytes : List Nat) (sha256 : String)
  | files (paths : List String)
deriving DecidableEq, Repr

/-- Content determination, lines 210-283: probe Files, then Image, then
Text/Html/Rtf; abort when the kind is disabled or its read fails. -/
def write_determine (sha : List Nat → String) (config : Config)
    (env : WriteEnv) : Option WritePayload :=
  if env.hasFiles then
    if !config.send_files then none
    else
      match env.getFilesResult with
      | some files => some (.files files)
      | none => none
  else if env.hasImage then
    if !config.send_images then none
    else
      match env.getImageResult with
      | some (some png) => some (.image png (sha png))
      | some none => none
      | none => none
  else if env.hasText || env.hasHtml || env.hasRtf then
    if !config.send_texts then none
    else
      some (.text ⟨(if env.hasText then env.getTextResult else none),
                   (if env.hasHtml then env.getHtmlResult else none),
                   (if env.hasRtf then env.getRtfResult else none)⟩)
  else none

/-- The recency test of lines 286-288: beat - last_beat computed in wrapping
u64 arithmetic, compared with the duplicate window. -/
def recentBeat (last_beat : Option Nat) (beat : Nat) : Bool :=
  match last_beat with
  | some lb => decide ((U64_MOD + beat - lb) % U64_MOD < DUPLICATE_WINDOW_MS)
  | none => false

/-- Lines 194-350: presence check, clipboard open, content determination,
duplicate suppression and size cap. Returns the payload when the write must
proceed; every abort returns none (source: return false). -/
def write_pre (sha : List Nat → String) (hostname : List Char)
    (config : Config) (env : WriteEnv) (st : AppState) : Option WritePayload :=
  if no_computers_receiving env.dirEntries hostname env.beat then none
  else if !env.ctxOk then none
  else
    match write_determine sha config env with
    | none => none
    | some payload =>
      let recent := recentBeat st.last_beat env.beat
      match payload with
      | .text ct =>
        if ct.is_empty then none
        else if recent &&
            (match st.last_text_read with
             | some lr => lr.equals ct
             | none => false) then none
        else if recent &&
            (match st.last_text_written with
             | some lw => lw.equals ct
             | none => false) then none
        else some (.text ct)
      | .image bytes sv =>
        if recent &&
            (match st.last_image_sha256_read with
             | some lr => lr == sv
             | none => false) then none
        else if recent &&
            (match st.last_image_sha256_written with
             | some lw => lw == sv
             | none => false) then none
        else some (.image bytes sv)
      | .files files =>
        if files.isEmpty then none
        else if recent &&
            (match st.last_file_paths_read with
             | some lr => sortStrings files == sortStrings lr
             | none => false) then none
        else if env.filesSizeExceeds then none
        else some (.files files)

/-- Observable filesystem effects of the commit phase. -/
inductive WriteEffect
  | wroteFile (name : List Char) (ok : Bool)
  | createdDir (name : List Char) (ok : Bool)
  | copied (src : String) (isDirectory : Bool) (ok : Bool)
deriving DecidableEq, Repr

/-- Lines 352-413: advance last_beat unconditionally, then serialize and write
the artifact. Copy failures of individual top-level entries (lines 393-407)
are logged but do not change the result. -/
def write_commit (hostname : List Char) (env : WriteEnv)
    (payload : WritePayload) (st : AppState) :
    Bool × AppState × List WriteEffect :=
  let st1 := { st with last_beat := some env.beat }
  match payload with
  | .text ct =>
    match env.serializeTextResult with
    | some _json =>
      if env.writeFileOk then
        (true, { st1 with last_text_written := some ct },
         [.wroteFile (text_filename env.beat hostname) true])
      else (false, st1, [.wroteFile (text_filename env.beat hostname) false])
    | none => (false, st1, [])
  | .image _bytes sv =>
    if env.writeFileOk then
      (true, { st1 with last_image_sha256_written := some sv },
       [.wroteFile (image_filename env.beat hostname) true])
    else (false, st1, [.wroteFile (image_filename env.beat hostname) false])
  | .files paths =>
    let destName := files_filename env.beat hostname env.totalFileCount
    if env.createDirOk then
      (true, st1,
       .createdDir destName true ::
         paths.map (fun p => .copied p (env.isDir p) (env.copyOk p)))
    else (false, st1, [.createdDir destName false])

/-- write_clipboard_to_file (src/clipboard.rs lines 183-413). -/
def write_clipboard_to_file (sha : List Nat → String) (hostname : List Char)
    (config : Config) (env : WriteEnv) (st : AppState) :
    Bool × AppState × List WriteEffect :=
  match write_pre sha hostname config env st with
  | none => (false, st, [])
  | some payload => write_commit hostname env payload st

/-! ## Concrete environments used by closed instances -/

/-- Stand-in hash oracle for closed instances. -/
def shaStub : List Nat → String := fun _ => "sha"

/-- A fresh foreign presence marker entry: host peer, modification time equal
to now. -/
def peerMarker : DirEntry := ⟨"peer".data ++ IS_RECEIVING_FILE_SUFFIX, some 1000000⟩

/-- Baseline write environment: readable folder with one fresh foreign marker,
working clipboard holding the text hello, all filesystem operations succeed. -/
def baseWriteEnv : WriteEnv where
  beat := 1000000
  dirEntries := some [peerMarker]
  ctxOk := true
  hasFiles := false
  hasImage := false
  hasText := true
  hasHtml := false
  hasRtf := false
  getFilesResult := none
  getImageResult := none
  getTextResult := some "hello"
  getHtmlResult := none
  getRtfResult := none
  filesSizeExceeds := false
  totalFileCount := 0
  serializeTextResult := some "json"
  writeFileOk := true
  createDirOk := true
  isDir := fun _ => false
  copyOk := fun _ => true

lemma option_mtime_check (o : Option Nat) (th : Nat) :
    ((match o with
      | some t => decide (th ≤ t)
      | none => false) = true) ↔ ∃ t, o = some t ∧ th ≤ t := by
  cases o <;> simp

/-- Claim C2 (amended): no_computers_receiving returns false (someone is
listening) exactly when the folder could be enumerated and some entry is a
fresh foreign marker; on an unreadable folder it returns true, and whenever it
returns true the writer aborts without writing (fail closed, not fail open). -/
theorem no_listeners_fail_closed (sha : List Nat → String)
    (hostname : List Char) (config : Config) (env : WriteEnv) (st : AppState) :
    (no_computers_receiving env.dirEntries hostname env.beat = false ↔
      ∃ l, env.dirEntries = some l ∧ ∃ e ∈ l,
        is_receiving_file e.name = true ∧
        e.name ≠ hostname ++ IS_RECEIVING_FILE_SUFFIX ∧
        ∃ t, e.mtime = some t ∧ env.beat - STALE_THRESHOLD_SECS * 1000 ≤ t) ∧
    (no_computers_receiving env.dirEntries hostname env.beat = true →
      write_clipboard_to_file sha hostname config env st = (false, st, [])) := by
  constructor
  · unfold no_computers_receiving
    cases henv : env.dirEntries with
    | none => simp
    | some es =>
      simp only [Bool.not_eq_false', List.any_eq_true, Bool.and_eq_true,
        beq_eq_false_iff_ne, ne_eq, Option.some.injEq, Bool.not_eq_true']
      constructor
      · rintro ⟨e, he, ⟨hrecv, hne⟩, hfresh⟩
        exact ⟨es, rfl, e, he, hrecv, hne, (option_mtime_check _ _).mp hfresh⟩
      · rintro ⟨l, hl, e, he, hrecv, hne, hfresh⟩
        subst hl
        exact ⟨e, he, ⟨hrecv, hne⟩, (option_mtime_check _ _).mpr hfresh⟩
  · intro hno
    unfold write_clipboard_to_file write_pre
    rw [hno]
    rfl

/-- Counterexample to claim C2 as stated: with an unreadable sync folder
(read_dir fails, dirEntries = none) the presence check reports true (no one
is listening) rather than someone listening, and the writer skips the send;
the identical environment with a readable folder holding a fresh foreign
marker does write. -/
theorem no_listeners_unreadable_counterexample :
    no_computers_receiving none "myhost".data 1000000 = true ∧
    write_clipboard_to_file shaStub "myhost".data Config.default
        { baseWriteEnv with dirEntries := none } emptyAppState
      = (false, emptyAppState, []) ∧
    (write_clipboard_to_file shaStub "myhost".data Config.default
        baseWriteEnv emptyAppState).1 = true :=
  ⟨by decide, by decide, by rfl⟩

/-- Closed instance of the amended claim C2. -/
theorem no_listeners_fail_closed_witness :
    write_clipboard_to_file shaStub "otherhost".data Config.default
        { baseWriteEnv with dirEntries := none } emptyAppState
      = (emptyAppState |> fun st => (false, st, [])) :=
  (no_listeners_fail_closed shaStub "otherhost".data Config.default
    { baseWriteEnv with dirEntries := none } emptyAppState).2 (by decide)

lemma write_pre_none (sha : List Nat → String) (hostname : List Char)
    (config : Config) (env : WriteEnv) (st : AppState)
    (h : write_pre sha hostname config env st = none) :
    write_clipboard_to_file sha hostname config env st = (false, st, []) := by
  unfold write_clipboard_to_file
  rw [h]

lemma recentBeat_true (lb beat : Nat) (hle : lb ≤ beat)
    (hwin : beat - lb < DUPLICATE_WINDOW_MS) (hb : beat < 2 ^ 64) :
    recentBeat (some lb) beat = true := by
  have h1 : 2 ^ 64 + beat - lb = 2 ^ 64 + (beat - lb) := by omega
  simp only [recentBeat, U64_MOD, h1, Nat.add_mod_left,
    Nat.mod_eq_of_lt (show beat - lb < 2 ^ 64 by omega), decide_eq_true_eq]
  exact hwin

/-- Claim C3 (amended): when the candidate beat is within the duplicate window
of the recorded last beat, a Text candidate equal to the last written text and
an Image candidate equal to the last written image hash are suppressed; a
Files candidate is suppressed only when equal (as a sorted list) to the last
files snapshot READ, because the dedup state holds no last written files
snapshot. -/
theorem duplicate_window_suppression (sha : List Nat → String)
    (hostname : List Char) (config : Config) (env : WriteEnv) (st : AppState)
    (lb : Nat) (hlb : st.last_beat = some lb) (hle : lb ≤ env.beat)
    (hwin : env.beat - lb < DUPLICATE_WINDOW_MS) (hb64 : env.beat < 2 ^ 64) :
    (∀ ct lw, write_determine sha config env = some (.text ct) →
      st.last_text_written = some lw → lw.equals ct = true →
      write_clipboard_to_file sha hostname config env st = (false, st, [])) ∧
    (∀ bytes sv lw, write_determine sha config env = some (.image bytes sv) →
      st.last_image_sha256_written = some lw → lw = sv →
      write_clipboard_to_file sha hostname config env st = (false, st, [])) ∧
    (∀ paths lr, write_determine sha config env = some (.files paths) →
      st.last_file_paths_read = some lr →
      sortStrings paths = sortStrings lr →
      write_clipboard_to_file sha hostname config env st = (false, st, [])) := by
  have hrecent : recentBeat st.last_beat env.beat = true := by
    rw [hlb]
    exact recentBeat_true lb env.beat hle hwin hb64
  refine ⟨?_, ?_, ?_⟩
  · intro ct lw hdet hlw heq
    apply write_pre_none
    unfold write_pre
    rw [hdet]
    simp [hrecent, hlw, heq, ite_self]
  · intro bytes sv lw hdet hlw heq
    apply write_pre_none
    unfold write_pre
    rw [hdet]
    simp [hrecent, hlw, heq, ite_self]
  · intro paths lr hdet hlr heq
    apply write_pre_none
    unfold write_pre
    rw [hdet]
    simp [hrecent, hlr, heq, ite_self]

/-- The text content hello used in closed instances. -/
def ctHello : ClipboardText := ⟨some "hello", none, none⟩

/-- Write environment observing the text hello 500 ms after beat 1000000. -/
def envTextLater : WriteEnv := { baseWriteEnv with beat := 1000500 }

/-- Dedup state that has just written the text hello at beat 1000000. -/
def stTextWritten : AppState :=
  { emptyAppState with
    last_beat := some 1000000, last_text_written := some ctHello }

/-- Closed instance of the amended claim C3, Text case. -/
theorem duplicate_window_suppression_witness :
    write_clipboard_to_file shaStub "h".data Config.default envTextLater
        stTextWritten = (false, stTextWritten, []) :=
  (duplicate_window_suppression shaStub "h".data Config.default envTextLater
      stTextWritten 1000000 rfl (by decide) (by decide) (by decide)).1
    ctHello ctHello (by decide) rfl (by decide)

/-- Write environment observing the single clipboard file a. -/
def envFilesA : WriteEnv :=
  { baseWriteEnv with
    hasText := false, hasFiles := true,
    getFilesResult := some ["a"], totalFileCount := 1 }

/-- The same files clipboard observed again 500 ms later. -/
def envFilesB : WriteEnv := { envFilesA with beat := 1000500 }

/-- Counterexample to claim C3 as stated: a Files candidate equal to the files
snapshot just written, arriving 500 ms later (inside the 15 s window), is NOT
suppressed: both writes return true, because the dedup state records no last
written files snapshot (only text and image have written snapshots). -/
theorem files_written_dedup_counterexample :
    (write_clipboard_to_file shaStub "h".data Config.default envFilesA
        emptyAppState).1 = true ∧
    (write_clipboard_to_file shaStub "h".data Config.default envFilesA
        emptyAppState).2.1
      = { emptyAppState with last_beat := some 1000000 } ∧
    envFilesB.beat - envFilesA.beat < DUPLICATE_WINDOW_MS ∧
    envFilesB.getFilesResult = envFilesA.getFilesResult ∧
    (write_clipboard_to_file shaStub "h".data Config.default envFilesB
        { emptyAppState with last_beat := some 1000000 }).1 = true :=
  ⟨by rfl, by rfl, by decide, by rfl, by rfl⟩

/-- Claim C4 (amended): every failing step makes write return false — any
failure before the commit (presence, clipboard access, disabled kind, read
error, empty, duplicate or oversized content) returns false with nothing
written; a Text write returns false when serialization or the file write
fails; an Image write returns false when the file write fails; a Files write
returns false when creating the artifact directory fails. The single
exception is a failure to copy an individual top-level entry into the created
directory, which is only logged: a Files write returns true exactly when
create_dir succeeded, regardless of the copy outcomes. -/
theorem write_failure_propagation (sha : List Nat → String)
    (hostname : List Char) (config : Config) (env : WriteEnv) (st : AppState) :
    (write_pre sha hostname config env st = none →
      write_clipboard_to_file sha hostname config env st = (false, st, [])) ∧
    (∀ ct, write_pre sha hostname config env st = some (.text ct) →
      ((write_clipboard_to_file sha hostname config env st).1 = true ↔
        (∃ j, env.serializeTextResult = some j) ∧ env.writeFileOk = true)) ∧
    (∀ bytes sv, write_pre sha hostname config env st = some (.image bytes sv) →
      ((write_clipboard_to_file sha hostname config env st).1 = true ↔
        env.writeFileOk = true)) ∧
    (∀ paths, write_pre sha hostname config env st = some (.files paths) →
      ((write_clipboard_to_file sha hostname config env st).1 = true ↔
        env.createDirOk = true)) := by
  refine ⟨write_pre_none sha hostname config env st, ?_, ?_, ?_⟩
  · intro ct h
    unfold write_clipboard_to_file
    rw [h]
    unfold write_commit
    cases hs : env.serializeTextResult with
    | none => simp [hs]
    | some j => cases hw : env.writeFileOk <;> simp [hs, hw]
  · intro bytes sv h
    unfold write_clipboard_to_file
    rw [h]
    unfold write_commit
    cases hw : env.writeFileOk <;> simp [hw]
  · intro paths h
    unfold write_clipboard_to_file
    rw [h]
    unfold write_commit
    cases hc : env.createDirOk <;> simp [hc]

/-- Write environment holding the file a whose copy into the artifact
directory fails. -/
def envCopyFail : WriteEnv := { envFilesA with copyOk := fun _ => false }

/-- Counterexample to claim C4 as stated: the checks pass, the artifact
directory is created, copying the single top-level entry fails, and write
still returns true. -/
theorem write_files_copy_counterexample :
    write_pre shaStub "h".data Config.default envCopyFail emptyAppState
      = some (.files ["a"]) ∧
    (write_clipboard_to_file shaStub "h".data Config.default envCopyFail
        emptyAppState).1 = true ∧
    (write_clipboard_to_file shaStub "h".data Config.default envCopyFail
        emptyAppState).2.2.drop 1 = [WriteEffect.copied "a" false false] :=
  ⟨by decide, by rfl, by rfl⟩

/-- Write environment whose text serialization fails. -/
def envSerializeFail : WriteEnv := { baseWriteEnv with serializeTextResult := none }

/-- Closed instance of the amended claim C4: a failing text serialization and
a failing directory creation each force the write result false. -/
theorem write_failure_propagation_witness :
    ((write_clipboard_to_file shaStub "h".data Config.default envSerializeFail
        emptyAppState).1 = true ↔
      ((∃ j, envSerializeFail.serializeTextResult = some j) ∧
        envSerializeFail.writeFileOk = true)) ∧
    ((write_clipboard_to_file shaStub "h".data Config.default
        { envFilesA with createDirOk := false } emptyAppState).1 = true ↔
      ({ envFilesA with createDirOk := false } : WriteEnv).createDirOk = true) :=
  ⟨(write_failure_propagation shaStub "h".data Config.default envSerializeFail
      emptyAppState).2.1 ctHello (by decide),
   (write_failure_propagation shaStub "h".data Config.default
      { envFilesA with createDirOk := false } emptyAppState).2.2.2
    ["a"] (by decide)⟩

/-- Claim C8: once write_pre has accepted the candidate (all duplicate and
size checks passed), the committed state records the candidate beat as the
last beat, whatever happens to the serialization or the filesystem write. -/
theorem last_beat_advanced_before_write (sha : List Nat → String)
    (hostname : List Char) (config : Config) (env : WriteEnv) (st : AppState)
    (payload : WritePayload)
    (h : write_pre sha hostname config env st = some payload) :
    (write_clipboard_to_file sha hostname config env st).2.1.last_beat
      = some env.beat := by
  unfold write_clipboard_to_file
  rw [h]
  unfold write_commit
  cases payload with
  | text ct =>
    cases env.serializeTextResult <;> cases hw : env.writeFileOk <;> simp [hw]
  | image bytes sv =>
    cases hw : env.writeFileOk <;> simp [hw]
  | files paths =>
    cases hc : env.createDirOk <;> simp [hc]

/-- Write environment whose filesystem write fails after the checks. -/
def envWriteFail : WriteEnv := { baseWriteEnv with writeFileOk := false }

/-- Closed instance of claim C8: the write fails (returns false) yet the last
beat is advanced to the candidate beat. -/
theorem last_beat_advanced_witness :
    (write_clipboard_to_file shaStub "h".data Config.default envWriteFail
        emptyAppState).1 = false ∧
    (write_clipboard_to_file shaStub "h".data Config.default envWriteFail
        emptyAppState).2.1.last_beat = some 1000000 :=
  ⟨by rfl,
   last_beat_advanced_before_write shaStub "h".data Config.default envWriteFail
     emptyAppState (.text ctHello) (by decide)⟩

/-! ## Sync reader (read_clipboard_from_file, src/clipboard.rs lines 418-638)

The source loads the artifact, opens the clipboard, compares against the live
clipboard, checks beat ordering, advances last_beat, then applies. The
branches on parsed.content_type are merged here into one outer match; within
each kind the steps appear in source order. -/

inductive ClipboardSetEffect
  | setText (ct : ClipboardText)
  | setImage (bytes : List Nat)
  | setFiles (paths : List String)
deriving DecidableEq, Repr

structure ReadEnv where
  /-- now_ms() at entry (line 426). -/
  nowMs : Nat
  /-- fs::read_to_string of a text artifact. -/
  fileText : Option String
  /-- serde_json::from_str on that content. -/
  parsedText : Option ClipboardText
  /-- fs::read of an image artifact. -/
  fileBytes : Option (List Nat)
  /-- get_total_number_of_files([file]) for a files artifact. -/
  actualFileCount : Nat
  /-- read_dir of the files artifact directory: the entry paths. -/
  dirPaths : Option (List String)
  /-- ClipboardContext::new() succeeded. -/
  ctxOk : Bool
  hasText : Bool
  hasHtml : Bool
  hasRtf : Bool
  hasImage : Bool
  hasFiles : Bool
  getTextResult : Option String
  getHtmlResult : Option String
  getRtfResult : Option String
  /-- Live clipboard image re-encoded to PNG (get_image and to_png both Ok). -/
  currentImagePng : Option (List Nat)
  /-- ctx.get_files() on the live clipboard. -/
  currentFiles : Option (List String)
  /-- RustImageData::from_bytes succeeded. -/
  imageFromBytesOk : Bool
  setTextOk : Bool
  setImageOk : Bool
  setFilesOk : Bool

/-- read_clipboard_from_file (src/clipboard.rs lines 418-638). Returns the
source return value, the dedup state after the call, and the clipboard set
operation performed, if any. -/
def read_clipboard_from_file (sha : List Nat → String) (config : Config)
    (parsed : ParsedClipboardFile) (env : ReadEnv) (st : AppState) :
    Bool × AppState × Option ClipboardSetEffect :=
  let beat := env.nowMs
  let superseded : Bool :=
    match st.last_beat with
    | some lb => decide (parsed.beat < lb)
    | none => false
  match parsed.content_type with
  | .Text =>
    if !config.receive_texts then (false, st, none)
    else
      match env.fileText with
      | none => (false, st, none)
      | some _content =>
        match env.parsedText with
        | none => (false, st, none)
        | some ct =>
          if !env.ctxOk then (false, st, none)
          else if ct.is_empty then (false, st, none)
          else
            let currentMatches : Bool :=
              if env.hasText || env.hasHtml || env.hasRtf then
                (ClipboardText.mk
                  (if env.hasText then env.getTextResult else none)
                  (if env.hasHtml then env.getHtmlResult else none)
                  (if env.hasRtf then env.getRtfResult else none)).equals ct
              else false
            if currentMatches then (false, st, none)
            else if superseded then (false, st, none)
            else
              let st1 := { st with last_beat := some beat }
              if env.setTextOk then
                (true, { st1 with last_text_read := some ct },
                 some (.setText ct))
              else (false, st1, none)
  | .Image =>
    if !config.receive_images then (false, st, none)
    else
      match env.fileBytes with
      | none => (false, st, none)
      | some bytes =>
        let sv := sha bytes
        if !env.ctxOk then (false, st, none)
        else
          let currentMatches : Bool :=
            if env.hasImage then
              match env.currentImagePng with
              | some png => sha png == sv
              | none => false
            else false
          if currentMatches then (false, st, none)
          else if superseded then (false, st, none)
          else
            let st1 := { st with last_beat := some beat }
            if !env.imageFromBytesOk then (false, st1, none)
            else if env.setImageOk then
              (true, { st1 with last_image_sha256_read := some sv },
               some (.setImage bytes))
            else (false, st1, none)
  | .Files =>
    if !config.receive_files then (false, st, none)
    else
      match parsed.files_count with
      | none => (false, st, none)
      | some expected =>
        if env.actualFileCount ≠ expected then (false, st, none)
        else
          match env.dirPaths with
          | none => (false, st, none)
          | some paths =>
            if !env.ctxOk then (false, st, none)
            else
              let currentMatches : Bool :=
                if env.hasFiles then
                  match env.currentFiles with
                  | some cur => sortStrings paths == sortStrings cur
                  | none => false
                else false
              if currentMatches then (false, st, none)
              else if superseded then (false, st, none)
              else
                let st1 := { st with last_beat := some beat }
                if env.setFilesOk then
                  (true, { st1 with last_file_paths_read := some paths },
                   some (.setFiles paths))
                else (false, st1, none)

/-- Baseline read environment: every load succeeds, the live clipboard is
empty, every set succeeds. -/
def baseReadEnv : ReadEnv where
  nowMs := 2000000
  fileText := some "filecontent"
  parsedText := some ctHello
  fileBytes := some [1, 2, 3]
  actualFileCount := 5
  dirPaths := some ["f/a"]
  ctxOk := true
  hasText := false
  hasHtml := false
  hasRtf := false
  hasImage := false
  hasFiles := false
  getTextResult := none
  getHtmlResult := none
  getRtfResult := none
  currentImagePng := none
  currentFiles := none
  imageFromBytesOk := true
  setTextOk := true
  setImageOk := true
  setFilesOk := true

/-- Claim C5: a Files artifact whose expected count differs from the actual
recursive file count is skipped without touching the clipboard or any dedup
state, and a read of a Files artifact can only report success when the actual
count equals the expected count. -/
theorem files_partial_transfer_gate (sha : List Nat → String) (config : Config)
    (parsed : ParsedClipboardFile) (env : ReadEnv) (st : AppState) :
    (∀ n, parsed.content_type = .Files → parsed.files_count = some n →
      env.actualFileCount ≠ n →
      read_clipboard_from_file sha config parsed env st = (false, st, none)) ∧
    (∀ st2 eff, parsed.content_type = .Files →
      read_clipboard_from_file sha config parsed env st = (true, st2, eff) →
      parsed.files_count = some env.actualFileCount) := by
  constructor
  · intro n hct hcount hmism
    unfold read_clipboard_from_file
    rw [hct, hcount]
    simp [hmism]
  · intro st2 eff hct h
    unfold read_clipboard_from_file at h
    rw [hct] at h
    simp only [] at h
    repeat' split at h
    all_goals simp_all

/-- Closed instance of claim C5: a five-file artifact with only three files
present is not applied and nothing changes. -/
theorem files_partial_transfer_gate_witness :
    read_clipboard_from_file shaStub Config.default
        ⟨["f".data], 999, .Files, .Others, some 5⟩
        { baseReadEnv with actualFileCount := 3 } emptyAppState
      = (false, emptyAppState, none) :=
  (files_partial_transfer_gate shaStub Config.default
      ⟨["f".data], 999, .Files, .Others, some 5⟩
      { baseReadEnv with actualFileCount := 3 } emptyAppState).1
    5 rfl rfl (by decide)

/-- Claim C6: when a last-applied beat is recorded and the artifact beat is
strictly older, the read pipeline is a no-op: it returns false, leaves the
dedup state untouched, and performs no clipboard set. -/
theorem superseded_beat_noop (sha : List Nat → String) (config : Config)
    (parsed : ParsedClipboardFile) (env : ReadEnv) (st : AppState) (lb : Nat)
    (hlb : st.last_beat = some lb) (hold : parsed.beat < lb) :
    read_clipboard_from_file sha config parsed env st = (false, st, none) := by
  have hsup : decide (parsed.beat < lb) = true := decide_eq_true hold
  unfold read_clipboard_from_file
  rw [hlb]
  simp only [hsup, reduceIte]
  cases parsed.content_type <;> (repeat' split) <;> rfl

/-- Closed instance of claim C6: beat 100 after beat 200. -/
theorem superseded_beat_noop_witness :
    read_clipboard_from_file shaStub Config.default
        ⟨["f".data], 100, .Text, .Others, none⟩ baseReadEnv
        { emptyAppState with last_beat := some 200 }
      = (false, { emptyAppState with last_beat := some 200 }, none) :=
  superseded_beat_noop shaStub Config.default
    ⟨["f".data], 100, .Text, .Others, none⟩ baseReadEnv
    { emptyAppState with last_beat := some 200 } 200 rfl (by decide)

set_option maxHeartbeats 2000000 in
/-- Claim C9: a successful read records the wall-clock time at which the read
began (now_ms at entry) as the last beat, not the beat encoded in the applied
artifact. -/
theorem read_records_read_time (sha : List Nat → String) (config : Config)
    (parsed : ParsedClipboardFile) (env : ReadEnv) (st : AppState)
    (h : (read_clipboard_from_file sha config parsed env st).1 = true) :
    (read_clipboard_from_file sha config parsed env st).2.1.last_beat
      = some env.nowMs := by
  rcases hr : read_clipboard_from_file sha config parsed env st with ⟨b, st2, eff⟩
  rw [hr] at h
  simp only [] at h ⊢
  subst h
  unfold read_clipboard_from_file at hr
  repeat'
    first
    | split at hr
    | simp only [] at hr
  all_goals injection hr with h1 h23
  all_goals
    first
    | exact Bool.noConfusion h1
    | (injection h23 with h2 h3; rw [← h2])

/-- Closed instance of claim C9: the artifact carries beat 123, the read
starts at time 2000000, and after the successful apply the last beat is
2000000 (which differs from 123). -/
theorem read_records_read_time_witness :
    (read_clipboard_from_file shaStub Config.default
        ⟨["f".data], 123, .Text, .Others, none⟩ baseReadEnv emptyAppState).1
      = true ∧
    (read_clipboard_from_file shaStub Config.default
        ⟨["f".data], 123, .Text, .Others, none⟩ baseReadEnv
        emptyAppState).2.1.last_beat = some 2000000 ∧
    (2000000 : Nat) ≠ 123 :=
  ⟨by rfl,
   read_records_read_time shaStub Config.default
     ⟨["f".data], 123, .Text, .Others, none⟩ baseReadEnv emptyAppState (by rfl),
   by decide⟩

/-! ## Retention sweep (clean_files, src/clipboard.rs lines 125-178) -/

structure CleanEntry where
  name : List Char
  mtime : Option Nat
deriving DecidableEq, Repr

/-- Models str::contains on a fixed pattern. -/
def hasSubstrList (pat : List Char) : List Char → Bool
  | [] => pat.isEmpty
  | c :: t => pat.isPrefixOf (c :: t) || hasSubstrList pat t

/-- The per-origin retention threshold in milliseconds (lines 159-162). -/
def origin_threshold_ms : ClipboardOrigin → Nat
  | .Myself => SELF_CLEAN_THRESHOLD_SECS * 1000
  | .Others => OTHERS_CLEAN_THRESHOLD_SECS * 1000

/-- Decision taken by clean_files for one directory entry: true when the entry
is deleted. Follows lines 135-177: parse with no filter; unparsed entries are
skipped if they are receiving markers, deleted if they match the legacy
patterns; parsed artifacts are deleted when the modification time is at or
below now minus the origin threshold (saturating subtraction). -/
def clean_decision (sync_folder : List (List Char)) (hostname : List Char)
    (now : Nat) (e : CleanEntry) : Bool :=
  match parse_clipboard_filename (sync_folder ++ [e.name]) sync_folder hostname
      none with
  | none =>
    if is_receiving_file e.name then false
    else
      ".txt".data.isSuffixOf e.name &&
        ("receiving-".data.isPrefixOf e.name ||
          hasSubstrList ".is-reading.".data e.name)
  | some parsed =>
    let threshold_ms := origin_threshold_ms parsed.origin
    match e.mtime with
    | some t => decide (t ≤ now - threshold_ms)
    | none => false

/-- clean_files: the names deleted from the folder listing. -/
def clean_files (sync_folder : List (List Char)) (hostname : List Char)
    (now : Nat) (entries : List CleanEntry) : List (List Char) :=
  (entries.filter (clean_decision sync_folder hostname now)).map CleanEntry.name

lemma matchSuffix_getLast (sfx : List Char) (s : SuffixCap)
    (h : matchSuffix sfx = some s) :
    sfx.getLast? = some 'n' ∨ sfx.getLast? = some 'g' ∨
      sfx.getLast? = some 's' := by
  by_cases h1 : sfx = "text.json".data
  · subst h1
    left
    decide
  by_cases h2 : sfx = "png".data
  · subst h2
    right
    left
    decide
  unfold matchSuffix at h
  rw [if_neg h1, if_neg h2] at h
  rcases htw : sfx.takeWhile isDigitChar with _ | ⟨d, ds⟩
  · rw [htw] at h
    simp at h
  · rw [htw] at h
    simp only [] at h
    by_cases h3 : d = '0'
    · rw [if_pos h3] at h
      simp at h
    rw [if_neg h3] at h
    by_cases h4 : sfx.dropWhile isDigitChar = "_files".data
    · right
      right
      have hsplit := List.takeWhile_append_dropWhile (p := isDigitChar) (l := sfx)
      rw [htw, h4] at hsplit
      rw [← hsplit, List.getLast?_append_of_ne_nil _ (by decide)]
      decide
    · rw [if_neg h4] at h
      simp at h

lemma matchFileName_getLast (name : List Char)
    (caps : List Char × List Char × SuffixCap)
    (h : matchFileName name = some caps) :
    name.getLast? = some 'n' ∨ name.getLast? = some 'g' ∨
      name.getLast? = some 's' := by
  unfold matchFileName at h
  rcases htw : name.takeWhile isDigitChar with _ | ⟨d, ds⟩ <;> rw [htw] at h
  · simp at h
  rcases hdw : name.dropWhile isDigitChar with _ | ⟨sep, rest1⟩ <;> rw [hdw] at h
  · simp at h
  simp only [] at h
  by_cases h3 : d = '0'
  · rw [if_pos h3] at h
    simp at h
  rw [if_neg h3] at h
  by_cases h4 : sep = '-'
  case neg =>
    rw [if_neg h4] at h
    simp at h
  rw [if_pos h4] at h
  rcases htw2 : rest1.takeWhile isHostChar with _ | ⟨hh, hs⟩ <;> rw [htw2] at h
  · simp at h
  rcases hdw2 : rest1.dropWhile isHostChar with _ | ⟨dot, sfx⟩ <;> rw [hdw2] at h
  · simp at h
  simp only [] at h
  by_cases h5 : dot = '.'
  case neg =>
    rw [if_neg h5] at h
    simp at h
  rw [if_pos h5] at h
  rw [Option.map_eq_some'] at h
  obtain ⟨s, hms, -⟩ := h
  have hlast := matchSuffix_getLast sfx s hms
  have hsfxne : sfx ≠ [] := by
    intro hn
    rw [hn] at hlast
    simp at hlast
  have hsplit1 := List.takeWhile_append_dropWhile (p := isDigitChar) (l := name)
  rw [htw, hdw] at hsplit1
  have hsplit2 := List.takeWhile_append_dropWhile (p := isHostChar) (l := rest1)
  rw [htw2, hdw2] at hsplit2
  have hrest1ne : rest1 ≠ [] := by
    rw [← hsplit2]
    simp
  have hname : name.getLast? = sfx.getLast? := by
    rw [← hsplit1,
      show (d :: ds) ++ (sep :: rest1) = ((d :: ds) ++ [sep]) ++ rest1 by simp,
      List.getLast?_append_of_ne_nil _ hrest1ne, ← hsplit2,
      show (hh :: hs) ++ (dot :: sfx) = ((hh :: hs) ++ [dot]) ++ sfx by simp,
      List.getLast?_append_of_ne_nil _ hsfxne]
  rw [hname]
  exact hlast

/-- A presence marker file name (ending in .is-receiving.txt) never parses as
an artifact: every parsed filename ends in n, g or s, while a marker ends
in t. -/
lemma marker_not_parsed (sync_folder : List (List Char)) (hostname : List Char)
    (name : List Char) (h : is_receiving_file name = true) :
    parse_clipboard_filename (sync_folder ++ [name]) sync_folder hostname none
      = none := by
  have hlastt : name.getLast? = some 't' := by
    unfold is_receiving_file at h
    obtain ⟨pre, hpre⟩ := List.isSuffixOf_iff_suffix.mp h
    rw [← hpre, List.getLast?_append_of_ne_nil _ (by decide)]
    decide
  cases hm : matchFileName name with
  | none =>
    unfold parse_clipboard_filename
    rw [dropRoot_append]
    simp only [hm]
  | some caps =>
    exfalso
    rcases matchFileName_getLast name caps hm with hl | hl | hl <;>
      rw [hlastt] at hl <;> exact absurd hl (by decide)

/-- Claim C7: the retention sweep deletes a decodable artifact with a known
modification time exactly when its age (now minus the modification time) has
reached the per-origin threshold (5 minutes for Myself, 10 minutes for
Others), and it never deletes a presence marker file, whatever its age. The
hypotheses that the time and the threshold do not exceed now reflect that now
is the current epoch-millisecond clock. -/
theorem retention_sweep_policy (sync_folder : List (List Char))
    (hostname : List Char) (now : Nat) :
    (∀ (e : CleanEntry) (p : ParsedClipboardFile) (t : Nat),
      parse_clipboard_filename (sync_folder ++ [e.name]) sync_folder hostname
          none = some p →
      e.mtime = some t → t ≤ now → origin_threshold_ms p.origin ≤ now →
      (clean_decision sync_folder hostname now e = true ↔
        origin_threshold_ms p.origin ≤ now - t)) ∧
    (∀ e : CleanEntry, is_receiving_file e.name = true →
      clean_decision sync_folder hostname now e = false) := by
  constructor
  · intro e p t hp hmt ht hth
    unfold clean_decision
    rw [hp, hmt]
    simp only [decide_eq_true_eq]
    omega
  · intro e h
    unfold clean_decision
    rw [marker_not_parsed sync_folder hostname e.name h]
    simp [h]

/-- Closed instance of claim C7: in folder f on host me at time 1000300000,
the artifact 1000-me.png (origin Myself) modified at 1000000000 is aged
exactly 300000 ms (the 5-minute own-origin boundary) and is deleted; the same
artifact aged one millisecond less is retained; a marker of any age is never
deleted. -/
theorem retention_sweep_policy_witness :
    clean_decision ["f".data] "me".data 1000300000
        ⟨"1000-me.png".data, some 1000000000⟩ = true ∧
    clean_decision ["f".data] "me".data 1000300000
        ⟨"1000-me.png".data, some 1000000001⟩ = false ∧
    clean_decision ["f".data] "me".data 1000300000
        ⟨"old.is-receiving.txt".data, some 0⟩ = false :=
  ⟨((retention_sweep_policy ["f".data] "me".data 1000300000).1
      ⟨"1000-me.png".data, some 1000000000⟩
      ⟨["f".data, "1000-me.png".data], 1000, .Image, .Myself, none⟩
      1000000000 (by decide) rfl (by decide) (by decide)).mpr (by decide),
   by decide,
   (retention_sweep_policy ["f".data] "me".data 1000300000).2
     ⟨"old.is-receiving.txt".data, some 0⟩ (by decide)⟩

/-- Claim C10: when the configuration file is missing or unreadable, or its
content fails to parse, load_config yields the default configuration: no
folder, all six send and receive flags on, auto cleanup on, native watch
mode, empty sync command; hence both is_sending_anything and
is_receiving_anything hold. -/
theorem load_config_defaults (r : Option String)
    (parseJson : String → Option Config)
    (h : r = none ∨ ∃ s, r = some s ∧ parseJson s = none) :
    load_config r parseJson = Config.default ∧
    (load_config r parseJson).folder = none ∧
    (load_config r parseJson).send_texts = true ∧
    (load_config r parseJson).send_images = true ∧
    (load_config r parseJson).send_files = true ∧
    (load_config r parseJson).receive_texts = true ∧
    (load_config r parseJson).receive_images = true ∧
    (load_config r parseJson).receive_files = true ∧
    (load_config r parseJson).auto_cleanup = true ∧
    (load_config r parseJson).watch_mode = WatchMode.Native ∧
    (load_config r parseJson).sync_command = "" ∧
    (load_config r parseJson).is_sending_anything = true ∧
    (load_config r parseJson).is_receiving_anything = true := by
  have hl : load_config r parseJson = Config.default := by
    rcases h with h | ⟨s, hs, hp⟩
    · rw [load_config, h]
      rfl
    · rw [load_config, hs]
      simp [hp]
  rw [hl]
  exact ⟨rfl, rfl, rfl, rfl, rfl, rfl, rfl, rfl, rfl, rfl, rfl, rfl, rfl⟩

/-- Closed instance of claim C10: a missing config file loads as the default
configuration. -/
theorem load_config_defaults_witness :
    load_config none (fun _ => some Config.default) = Config.default ∧
    (load_config none (fun _ => some Config.default)).send_texts = true ∧
    (load_config none (fun _ => some Config.default)).is_receiving_anything
      = true :=
  ⟨(load_config_defaults none (fun _ => some Config.default) (Or.inl rfl)).1,
   (load_config_defaults none (fun _ => some Config.default) (Or.inl rfl)).2.2.1,
   (load_config_defaults none (fun _ => some Config.default)
     (Or.inl rfl)).2.2.2.2.2.2.2.2.2.2.2.2⟩

end ClipboardSync
